import Mathlib

/-!
Shallow embedding of the `tables` crate: the process-wide version counter,
the in-memory table, the Cache and Clock decorators, the fan-out
synchronizer generated by the `fork!` macro, the sheet version fingerprint
logic, the A1 region-reference codec, and the flat row serializer and
deserializer.  Stateful Rust code is embedded as explicit state passing;
the global `AtomicU64` version counter is threaded as an explicit `Nat`
argument; fallible operations return `Except`; external calls (origin
fetch, remote cell reads) are supplied as oracle arguments.
-/

/-- `next_version` models `VERSION.fetch_add(1, Relaxed)` on the global
    `AtomicU64`: it returns the current counter value and the incremented
    counter. -/
def next_version (c : Nat) : Nat × Nat := (c, c + 1)

/-- `InMemTable` from `in_mem.rs`: a sparse, position-addressed collection
    of optional records plus the table's version. -/
structure InMemTable (E : Type) where
  rows : List (Option E)
  version : Nat
  deriving Repr, DecidableEq

namespace InMemTable

/-- `InMemTable::new`: wrap each row in `Some` and take a fresh version.
    Returns the table and the advanced global counter. -/
def new {E : Type} (rows : List E) (c : Nat) : InMemTable E × Nat :=
  ({ rows := rows.map some, version := (next_version c).1 }, (next_version c).2)

/-- `InMemTable::_extend`: append each entry as `Some`, bump the version. -/
def extendOwned {E : Type} (t : InMemTable E) (entries : List E) (c : Nat) :
    InMemTable E × Nat :=
  ({ rows := t.rows ++ entries.map some, version := (next_version c).1 },
   (next_version c).2)

/-- One iteration of the `_update` loop: grow the row vector with `None`
    up to index `idx` if needed (`resize_with(idx + 1, || None)`), then
    overwrite slot `idx`. -/
def setRow {E : Type} (rows : List (Option E)) (idx : Nat) (e : E) :
    List (Option E) :=
  let rows :=
    if rows.length ≤ idx then rows ++ List.replicate (idx + 1 - rows.length) none
    else rows
  rows.set idx (some e)

/-- The `_update` loop over the enumerated entries: entry `i` goes to slot
    `from_row + i`. -/
def updateRows {E : Type} : List (Option E) → Nat → List E → List (Option E)
  | rows, _, [] => rows
  | rows, i, e :: es => updateRows (setRow rows i e) (i + 1) es

/-- `InMemTable::_update`: write the entries at and after `from_row`,
    bump the version. -/
def update {E : Type} (t : InMemTable E) (from_row : Nat) (entries : List E)
    (c : Nat) : InMemTable E × Nat :=
  ({ rows := updateRows t.rows from_row entries, version := (next_version c).1 },
   (next_version c).2)

/-- `InMemTable::clear`: empty the rows and reset the version to the
    sentinel `0` (the global counter is not consulted). -/
def clear {E : Type} (_t : InMemTable E) : InMemTable E :=
  { rows := [], version := 0 }

/-- `InMemTable::read`: the present records in position order. -/
def read {E : Type} (t : InMemTable E) : List E :=
  t.rows.filterMap id

end InMemTable

/-- The order-relevant mirror operations performed by `Cache::refresh`
    (used to count clears and wholesale reloads). -/
inductive MirrorOp
  | clear
  | reload
  deriving Repr, DecidableEq

/-- `Cache` from `cache.rs` with an `InMemTable` mirror: the mirror plus
    the last-observed origin version.  The origin is external; its
    `version()` and `fetch()` results are passed to `refresh` as oracle
    values. -/
structure Cache (E : Type) where
  cache : InMemTable E
  last_origin_version : Nat
  deriving Repr, DecidableEq

namespace Cache

/-- `Cache::refresh`: if the origin version differs from the last-observed
    one, record it, clear the mirror and reload it wholesale with the
    origin's fetched entries; otherwise leave everything untouched.
    Also returns the list of mirror operations performed and the advanced
    global counter. -/
def refresh {E : Type} (t : Cache E) (origin_version : Nat)
    (origin_entries : List E) (c : Nat) : Cache E × List MirrorOp × Nat :=
  if t.last_origin_version ≠ origin_version then
    let cleared := t.cache.clear
    let (rebuilt, c2) := cleared.extendOwned origin_entries c
    ({ cache := rebuilt, last_origin_version := origin_version },
     [MirrorOp.clear, MirrorOp.reload], c2)
  else
    (t, [], c)

/-- `Cache::read` (the `TableRead` impl): return the mirror's current view
    without consulting the origin. -/
def read {E : Type} (t : Cache E) : List E :=
  t.cache.read

end Cache

/-- The `cache.rs` error enum: a failure is tagged with the side that
    produced it. -/
inductive CacheError (O C : Type)
  | Origin (e : O)
  | Cache (e : C)
  deriving Repr, DecidableEq

/-- The mirror/origin pair underlying the write paths of `Cache`.  The
    mirror and origin behaviors are supplied as state-transition
    functions. -/
structure CachePair (MS OS : Type) where
  cache : MS
  origin : OS

/-- `TableExtend for Cache`: write the mirror first
    (`try_cache!(self.cache.extend(..))`), then the origin
    (`try_origin!(self.origin.extend(..))`); each failure is tagged with
    its side and aborts, leaving the states already written in place. -/
def cacheExtend {E MS OS CErr OErr : Type}
    (mirExtend : MS → List E → Except CErr MS)
    (orgExtend : OS → List E → Except OErr OS)
    (t : CachePair MS OS) (entries : List E) :
    CachePair MS OS × Except (CacheError OErr CErr) Unit :=
  match mirExtend t.cache entries with
  | .error e => (t, .error (.Cache e))
  | .ok ms =>
    match orgExtend t.origin entries with
    | .error e => ({ cache := ms, origin := t.origin }, .error (.Origin e))
    | .ok os => ({ cache := ms, origin := os }, .ok ())

/-- `TableUpdate for Cache`: same mirror-first discipline as `cacheExtend`,
    with the starting row threaded through. -/
def cacheUpdate {E MS OS CErr OErr : Type}
    (mirUpdate : MS → Nat → List E → Except CErr MS)
    (orgUpdate : OS → Nat → List E → Except OErr OS)
    (t : CachePair MS OS) (from_row : Nat) (entries : List E) :
    CachePair MS OS × Except (CacheError OErr CErr) Unit :=
  match mirUpdate t.cache from_row entries with
  | .error e => (t, .error (.Cache e))
  | .ok ms =>
    match orgUpdate t.origin from_row entries with
    | .error e => ({ cache := ms, origin := t.origin }, .error (.Origin e))
    | .ok os => ({ cache := ms, origin := os }, .ok ())

/-- `Clock` from `clock.rs`: wraps a `Version`-reporting component, caching
    the last version together with the instant it was last refreshed.
    Instants and the time-to-live are modelled as integers. -/
structure Clock (IS : Type) where
  inner : IS
  ttl : Int
  cached_version : Nat
  last_cache_update : Int

/-- `TableVersion for Clock::version`: if more than `ttl` has elapsed since
    the last cache update, query the wrapped component once, cache and
    return its result; otherwise return the cached version without any
    inner call.  The wrapped `version()` is supplied as an oracle
    state-transition function; the second component counts the calls made
    to it (0 or 1). -/
def Clock.versionOp {IS Err : Type} (innerVersion : IS → Except Err (Nat × IS))
    (t : Clock IS) (now : Int) : Except Err (Nat × Clock IS) × Nat :=
  if now - t.last_cache_update > t.ttl then
    match innerVersion t.inner with
    | .error e => (.error e, 1)
    | .ok (v, is2) =>
      (.ok (v, { inner := is2, ttl := t.ttl, cached_version := v,
                 last_cache_update := now }), 1)
  else
    (.ok (t.cached_version, t), 0)

/-- One fan-out subscriber as declared at a `fork!` call site: its state
    and its `clear` / `extend` / `update` behaviors. -/
structure Subscriber (σ ε E : Type) where
  state : σ
  clear : σ → Except ε σ
  extend : σ → List E → Except ε σ
  update : σ → Nat → List E → Except ε σ

/-- The closed error enum generated by `fork!`, with the per-subscriber
    variants (`ErrorExtend::$sub_name(e)` etc.) represented by the
    subscriber's position in the declared list. -/
inductive ForkError (α β : Type)
  | FetchOrigin (e : α)
  | ExtendOrigin (e : α)
  | ExtendSub (k : Nat) (e : β)
  | UpdateOrigin (e : α)
  | UpdateSub (k : Nat) (e : β)
  | ClearSub (k : Nat) (e : β)

/-- The expanded `$(self.$sub_name.⟨op⟩.await.map_err(..)?;)+` statement
    sequence: apply `step` to each subscriber in declared order; on the
    first failure stop, keeping the states already written and reporting
    the failing subscriber's position and error. -/
def applySubs {σ ε E : Type} (step : Subscriber σ ε E → Except ε σ) :
    Nat → List (Subscriber σ ε E) → List (Subscriber σ ε E) × Option (Nat × ε)
  | _, [] => ([], none)
  | k, s :: rest =>
    match step s with
    | .error e => (s :: rest, some (k, e))
    | .ok st =>
      let (rest2, err) := applySubs step (k + 1) rest
      ({ s with state := st } :: rest2, err)

/-- `fork! TableExtend::extend`: write the origin first; on origin failure
    report `ExtendOrigin` with no subscriber touched; on origin success
    fan the identical write out to each subscriber in declared order,
    reporting the first subscriber failure without undoing anything. -/
def forkExtend {OS σ ε α E : Type} (orgExtend : OS → List E → Except α OS)
    (os : OS) (subs : List (Subscriber σ ε E)) (entries : List E) :
    (OS × List (Subscriber σ ε E)) × Option (ForkError α ε) :=
  match orgExtend os entries with
  | .error e => ((os, subs), some (.ExtendOrigin e))
  | .ok os2 =>
    match applySubs (fun s => s.extend s.state entries) 0 subs with
    | (subs2, none) => ((os2, subs2), none)
    | (subs2, some (k, e)) => ((os2, subs2), some (.ExtendSub k e))

/-- `fork! TableUpdate::update`: identical discipline to `forkExtend`,
    with the starting row threaded through. -/
def forkUpdate {OS σ ε α E : Type}
    (orgUpdate : OS → Nat → List E → Except α OS) (os : OS)
    (subs : List (Subscriber σ ε E)) (from_row : Nat) (entries : List E) :
    (OS × List (Subscriber σ ε E)) × Option (ForkError α ε) :=
  match orgUpdate os from_row entries with
  | .error e => ((os, subs), some (.UpdateOrigin e))
  | .ok os2 =>
    match applySubs (fun s => s.update s.state from_row entries) 0 subs with
    | (subs2, none) => ((os2, subs2), none)
    | (subs2, some (k, e)) => ((os2, subs2), some (.UpdateSub k e))

/-- `fork! TableFetch::fetch`: fetch from the origin
    (`map_err(Error::Fetch(ErrorFetch::Origin))?`), then clear every
    subscriber in declared order, then extend every subscriber with the
    fetched entries in declared order; every failure, subscriber failures
    included, is propagated as its tagged variant. -/
def forkFetch {OS σ ε α E : Type} (orgFetch : OS → Except α (OS × List E))
    (os : OS) (subs : List (Subscriber σ ε E)) :
    (OS × List (Subscriber σ ε E)) × Except (ForkError α ε) (List E) :=
  match orgFetch os with
  | .error e => ((os, subs), .error (.FetchOrigin e))
  | .ok (os2, entries) =>
    match applySubs (fun s => s.clear s.state) 0 subs with
    | (subs2, some (k, e)) => ((os2, subs2), .error (.ClearSub k e))
    | (subs2, none) =>
      match applySubs (fun s => s.extend s.state entries) 0 subs2 with
      | (subs3, some (k, e)) => ((os2, subs3), .error (.ExtendSub k e))
      | (subs3, none) => ((os2, subs3), .ok entries)

/-- The version-fingerprint state of `Sheet` in `google_sheets/mod.rs`:
    the current version and the last-observed meta-cell content hash. -/
structure SheetVersion where
  version : Nat
  version_hash : String
  deriving Repr, DecidableEq

/-- `Sheet::fetch_version`: with no meta region configured the version is
    bumped unconditionally; with a meta region the observed content-hash
    string (extracted from the meta cell, the empty string when the cell
    is absent) bumps the version only when it differs from the
    last-observed hash.  The remote read is supplied as the oracle value
    `observed_hash`; the global counter is threaded explicitly. -/
def SheetVersion.fetch_version (meta_configured : Bool) (observed_hash : String)
    (s : SheetVersion) (c : Nat) : SheetVersion × Nat :=
  if meta_configured then
    if observed_hash ≠ s.version_hash then
      ({ version := (next_version c).1, version_hash := observed_hash },
       (next_version c).2)
    else (s, c)
  else
    ({ s with version := (next_version c).1 }, (next_version c).2)

/-- The `range.rs` error enum (only the variant the parser produces). -/
inductive RangeError
  | InvalidRange (s : String)
  | InvalidRangeBounds (s : String)
  deriving Repr, DecidableEq

/-- `SheetRange` from `range.rs`: sheet name, 0-indexed inclusive start
    column/row, exclusive end column, optional exclusive end row (absent
    means unbounded). -/
structure SheetRange where
  sheet_name : String
  c_start : Nat
  r_start : Nat
  c_end : Nat
  r_end : Option Nat
  deriving Repr, DecidableEq

/-- The `to_col` closure of `from_str`: fold the `A`-`Z` letters as a
    1-indexed base-26 numeral with no zero digit
    (`acc * 26 + (c - 'A' + 1)`). -/
def toCol (letters : List Char) : Nat :=
  letters.foldl (fun acc ch => acc * 26 + (ch.toNat - 'A'.toNat + 1)) 0

/-- Uppercase-letter test for the `[A-Z]` character class. -/
def isColLetter (ch : Char) : Bool :=
  'A' ≤ ch && ch ≤ 'Z'

/-- Decimal-digit test for the `\d` character class. -/
def isRowDigit (ch : Char) : Bool :=
  '0' ≤ ch && ch ≤ '9'

/-- Greedy match of the optional row group `([1-9]\d*)?`: if the input
    starts with a nonzero digit, consume the maximal digit run and return
    its value; otherwise consume nothing. -/
def parseRowDigits (cs : List Char) : Option Nat × List Char :=
  match cs with
  | c :: _ =>
    if '1' ≤ c && c ≤ '9' then
      let digits := cs.takeWhile isRowDigit
      let rest := cs.dropWhile isRowDigit
      (some (digits.foldl (fun acc ch => acc * 10 + (ch.toNat - '0'.toNat)) 0),
       rest)
    else (none, cs)
  | [] => (none, cs)

/-- Match of the anchored suffix grammar
    `[A-Z]+([1-9]\d*)?(:[A-Z]+([1-9]\d*)?)?$` after the `!`: returns the
    raw (1-indexed) start column value, the optional raw start row, and
    the optional raw end column/row pair.  All the character classes are
    disjoint from what may follow them, so greedy matching is maximal
    munch and the grammar is deterministic. -/
def parseRangePart (cs : List Char) : Option (Nat × Option Nat × Option (Nat × Option Nat)) :=
  let letters := cs.takeWhile isColLetter
  let rest := cs.dropWhile isColLetter
  if letters.isEmpty then none
  else
    let (rowStart, rest2) := parseRowDigits rest
    match rest2 with
    | [] => some (toCol letters, rowStart, none)
    | ':' :: rest3 =>
      let letters2 := rest3.takeWhile isColLetter
      let rest4 := rest3.dropWhile isColLetter
      if letters2.isEmpty then none
      else
        let (rowEnd, rest5) := parseRowDigits rest4
        if rest5.isEmpty then some (toCol letters, rowStart, some (toCol letters2, rowEnd))
        else none
    | _ => none

/-- All ways of reading the input as `name“!”suffix`, in the order the
    greedy `(?<name>.*)!` group tries them: longest name first.  A name
    containing a newline is excluded, as `.` does not match it. -/
def bangSplits : List Char → List (List Char × List Char)
  | [] => []
  | c :: rest =>
    let inner := (bangSplits rest).map (fun p => (c :: p.1, p.2))
    if c = '!' then inner ++ [([], rest)] else inner

/-- The bounds check of `from_str`:
    `c_start > c_end || r_end.is_some_and(|r_end| r_end < r_start)`. -/
def boundsInvalid (c_start c_end r_start : Nat) (r_end : Option Nat) : Bool :=
  decide (c_start > c_end) ||
    (match r_end with
     | some re => decide (re < r_start)
     | none => false)

/-- `SheetRange::from_str`: match the A1 regex (name split plus suffix
    grammar, with the regex engine's greedy backtracking order), convert
    the column to 0-indexed (`to_col - 1`), default an absent start row to
    row 1 and convert it to 0-indexed, keep the end column and end row raw
    (exclusive), turn a missing end part into the 1×1 cell region, and
    reject the result when the bounds check fires. -/
def SheetRange.from_str (s : String) : Except RangeError SheetRange :=
  let matched := (bangSplits s.data).findSome? (fun p =>
    if p.1.all (fun ch => ch ≠ '\n') then
      (parseRangePart p.2).map (fun r => (p.1, r))
    else none)
  match matched with
  | none => .error (.InvalidRange s)
  | some (name, csRaw, rsRaw, endPart) =>
    let c_start := csRaw - 1
    let r_start := rsRaw.getD 1 - 1
    let (c_end, r_end) :=
      match endPart with
      | some (ceRaw, reRaw) => (ceRaw, reRaw)
      | none => (c_start + 1, some (r_start + 1))
    if boundsInvalid c_start c_end r_start r_end then
      .error (.InvalidRange s)
    else
      .ok { sheet_name := String.mk name, c_start := c_start,
            r_start := r_start, c_end := c_end, r_end := r_end }

/-- The `from_col` closure of `ToString for SheetRange`:
    `repeat('A').take(col / 26)` followed by the character
    `col % 26 + 'A'`. -/
def fromColStr (col : Nat) : String :=
  String.mk (List.replicate (col / 26) 'A' ++ [Char.ofNat (col % 26 + 'A'.toNat)])

/-- `ToString for SheetRange`:
    `"{sheet}!{from_col(c_start)}{r_start + 1}:{from_col(c_end - 1)}{r_end or empty}"`. -/
def SheetRange.toA1 (r : SheetRange) : String :=
  r.sheet_name ++ "!" ++ fromColStr r.c_start ++ toString (r.r_start + 1) ++ ":"
    ++ fromColStr (r.c_end - 1)
    ++ (match r.r_end with
        | some re => toString re
        | none => "")

/-- A spreadsheet cell as both sides of the row protocol see it: the
    serializer emits number / string / boolean cells
    (`ExtendedValue.number_value` is an `f64`, modelled as an exact
    rational), the deserializer additionally sees null cells. -/
inductive Cell
  | null
  | num (q : Rat)
  | str (s : String)
  | bool (b : Bool)
  deriving Repr, DecidableEq

/-- A scalar value of the serde data model, as far as the row protocol
    accepts it: every numeric type funnels into `number_value: f64`
    (modelled as an exact rational), `char` funnels into a string, a unit
    enum variant into its name, unit and an absent optional into the
    empty-string cell, a present optional into its payload. -/
inductive SValue
  | num (q : Rat)
  | str (s : String)
  | bool (b : Bool)
  | variant (v : String)
  | unit
  | optNone
  | optSome (v : SValue)
  deriving Repr, DecidableEq

/-- The sequence of cells a scalar pushes in `Serializer for &mut
    RowSerializer` (always exactly one): numbers via `impl_ser_num!`,
    strings via `serialize_str`, booleans via `serialize_bool`, unit
    variants via `serialize_unit_variant` (the variant name as a string),
    unit and `None` via `serialize_none` (an empty-string cell), `Some`
    via `serialize_some` (the payload directly). -/
def serializeSV : SValue → List Cell
  | .num q => [.num q]
  | .str s => [.str s]
  | .bool b => [.bool b]
  | .variant v => [.str v]
  | .unit => [.str ""]
  | .optNone => [.str ""]
  | .optSome v => serializeSV v

/-- `RowSerializer` on a record: `serialize_struct` begins the single
    permitted flat row and each field is serialized in declaration order
    by `serialize_field`. -/
def serializeRecord (fields : List SValue) : List Cell :=
  (fields.map serializeSV).flatten

/-- The target type directing `Deserializer for &mut RowDeserializer`:
    which `deserialize_*` entry point the derived record impl calls for a
    field. -/
inductive FieldTy
  | num
  | str
  | boolTy
  | enumTy (variants : List String)
  | unitTy
  | optTy (t : FieldTy)
  deriving Repr, DecidableEq

/-- The `serde_impl/error.rs` variants the deserializer produces, plus
    `InvalidLength` for the derived impl's missing-field error when
    `RowSeqAccess::next_element_seed` finds the row exhausted, and `Panic`
    for `is_next_empty` indexing `data[0]` on an empty slice. -/
inductive DeError
  | OutOfBounds
  | ExpectedBoolean
  | ExpectedDouble
  | ExpectedEmpty
  | UnknownVariant
  | InvalidLength
  | Panic
  deriving Repr, DecidableEq

/-- Model of Rust's `str::trim`: drop whitespace from both ends.  (Lean's
    own `String.trim` works on byte positions and does not reduce in the
    kernel, so the same operation is written over the character list.) -/
def strTrim (s : String) : String :=
  String.mk (((s.data.dropWhile Char.isWhitespace).reverse.dropWhile
    Char.isWhitespace).reverse)

/-- `is_next_empty`: a null cell or an empty-string cell counts as
    empty. -/
def cellEmpty : Cell → Bool
  | .null => true
  | .str s => s.length == 0
  | _ => false

/-- The digit fold shared by the numeric string parse: `none` when a
    non-digit appears. -/
def digitsVal : List Char → Option Nat
  | [] => some 0
  | c :: cs =>
    if isRowDigit c then
      (digitsVal cs).map (fun n => n + (c.toNat - '0'.toNat) * 10 ^ cs.length)
    else none

/-- Model of Rust's `str::parse::<f64>` on the plain decimal forms
    (optional sign, integer digits, optional fraction digits), as an exact
    rational. -/
def parseDecimal (cs : List Char) : Option Rat :=
  let core : List Char → Option Rat := fun cs =>
    let intPart := cs.takeWhile isRowDigit
    let rest := cs.dropWhile isRowDigit
    match rest with
    | [] =>
      if intPart.isEmpty then none
      else (digitsVal intPart).map (fun n => (n : Rat))
    | '.' :: frac =>
      if intPart.isEmpty && frac.isEmpty then none
      else
        match digitsVal intPart, digitsVal frac with
        | some n, some f => some ((n : Rat) + (f : Rat) / ((10 : Rat) ^ frac.length))
        | _, _ => none
    | _ => none
  match cs with
  | '-' :: rest => (core rest).map (fun q => -q)
  | '+' :: rest => core rest
  | _ => core cs

/-- The string branch of `parse_f64`: replace `,` with `.`, strip all
    whitespace, then either parse a `%`-suffixed number and divide by 100
    or parse the number directly. -/
def parseF64String (s : String) : Option Rat :=
  let cs := (s.data.map (fun ch => if ch = ',' then '.' else ch)).filter
    (fun ch => !ch.isWhitespace)
  match cs.getLast? with
  | some '%' => (parseDecimal (cs.dropLast)).map (fun q => q / 100)
  | _ => parseDecimal cs

/-- One field's deserialization: the cursor semantics of `RowDeserializer`
    (consume one cell per scalar via `next`, but note that
    `deserialize_option` of an empty cell and `deserialize_unit` return
    WITHOUT consuming the cell), with the tolerant coercions of
    `parse_f64` / `parse_bool` / `parse_str` (which trims). -/
def deField : FieldTy → List Cell → Except DeError (SValue × List Cell)
  | .num, [] => .error .OutOfBounds
  | .num, cell :: rest =>
    match cell with
    | .num q => .ok (.num q, rest)
    | .str s =>
      match parseF64String s with
      | some q => .ok (.num q, rest)
      | none => .error .ExpectedDouble
    | _ => .error .ExpectedDouble
  | .str, [] => .error .OutOfBounds
  | .str, cell :: rest =>
    match cell with
    | .str s => .ok (.str (strTrim s), rest)
    | _ => .error .ExpectedBoolean
  | .boolTy, [] => .error .OutOfBounds
  | .boolTy, cell :: rest =>
    match cell with
    | .bool b => .ok (.bool b, rest)
    | .str "TRUE" => .ok (.bool true, rest)
    | .str "FALSE" => .ok (.bool false, rest)
    | .str _ => .error .ExpectedBoolean
    | _ => .error .ExpectedBoolean
  | .enumTy _, [] => .error .OutOfBounds
  | .enumTy vars, cell :: rest =>
    match cell with
    | .str s =>
      if strTrim s ∈ vars then .ok (.variant (strTrim s), rest)
      else .error .UnknownVariant
    | _ => .error .ExpectedBoolean
  | .unitTy, [] => .error .Panic
  | .unitTy, cell :: rest =>
    if cellEmpty cell then .ok (.unit, cell :: rest) else .error .ExpectedEmpty
  | .optTy _, [] => .error .Panic
  | .optTy t, cell :: rest =>
    if cellEmpty cell then .ok (.optNone, cell :: rest)
    else (deField t (cell :: rest)).map (fun p => (.optSome p.1, p.2))

/-- The derived record deserialization through `RowSeqAccess`: one field
    after the other in declaration order; an exhausted row with fields
    still missing is the derived impl's invalid-length error; cells left
    after the last field are ignored. -/
def deRecord : List FieldTy → List Cell → Except DeError (List SValue)
  | [], _ => .ok []
  | _ :: _, [] => .error .InvalidLength
  | t :: ts, cell :: cells => do
    let (v, rest) ← deField t (cell :: cells)
    let vs ← deRecord ts rest
    pure (v :: vs)

/-- The first (and only) cell a scalar serializes to. -/
def serCell (v : SValue) : Cell :=
  (serializeSV v).headD Cell.null

/-- The round-trip-safe typing of a scalar against a field type: the value
    has the field's type, its strings are trim-invariant, enum variant
    names are declared and trim-invariant, present optionals do not
    serialize to an empty cell, and absent optionals and unit (whose
    cells deserialization does not consume) are excluded. -/
def okField : SValue → FieldTy → Bool
  | .num _, .num => true
  | .str s, .str => strTrim s == s
  | .bool _, .boolTy => true
  | .variant v, .enumTy vars => (strTrim v == v) && vars.contains v
  | .optSome v, .optTy t => okField v t && !cellEmpty (serCell v)
  | _, _ => false

/-- A fan-out subscriber whose `clear` always fails (a mock used to
    exercise the subscriber-failure path of `forkFetch`). -/
def failingClearSub : Subscriber Unit Unit Nat :=
  { state := (), clear := fun _ => .error (),
    extend := fun _ _ => .ok (), update := fun _ _ _ => .ok () }

/-- A mock origin whose fetch always succeeds with the entries `[1]`. -/
def okOriginFetch : Unit → Except Unit (Unit × List Nat) :=
  fun _ => .ok ((), [1])

/-- A mock mirror whose write always fails with error 0. -/
def failingMirExtend : Unit → List Nat → Except Nat Unit :=
  fun _ _ => .error 0

/-- A mock origin whose write always succeeds. -/
def okOrgExtend : Unit → List Nat → Except Nat Unit :=
  fun _ _ => .ok ()

/-- A mock origin whose write always fails with error 7. -/
def failingOrgExtend : Unit → List Nat → Except Nat Unit :=
  fun _ _ => .error 7

/-- An in-memory mirror write (infallible, counter fixed at 4). -/
def inMemMirExtend : InMemTable Nat → List Nat → Except Nat (InMemTable Nat) :=
  fun m es => .ok ((m.extendOwned es 4).1)

/-- A fan-out subscriber all of whose operations succeed. -/
def okSub : Subscriber Unit Unit Nat :=
  { state := (), clear := fun _ => .ok (),
    extend := fun _ _ => .ok (), update := fun _ _ _ => .ok () }

/-- A fan-out subscriber whose `extend` always fails. -/
def failingExtendSub : Subscriber Unit Unit Nat :=
  { state := (), clear := fun _ => .ok (),
    extend := fun _ _ => .error (), update := fun _ _ _ => .ok () }

/-- A mock wrapped component whose `version()` always reports 42. -/
def innerVersion42 : Unit → Except Unit (Nat × Unit) :=
  fun u => .ok (42, u)

/- ------------------------------------------------------------------ -/
/- Helper lemmas                                                       -/
/- ------------------------------------------------------------------ -/

theorem filterMap_id_map_some {E : Type} (l : List E) :
    (l.map some).filterMap id = l := by
  simp

theorem inMem_read_extendOwned {E : Type} (t : InMemTable E) (es : List E)
    (c : Nat) : ((t.extendOwned es c).1).read = t.read ++ es := by
  simp [InMemTable.extendOwned, InMemTable.read, next_version]

theorem applySubs_ok {σ ε E : Type} (step : Subscriber σ ε E → Except ε σ)
    (f : Subscriber σ ε E → σ) :
    ∀ (k : Nat) (subs : List (Subscriber σ ε E)),
      (∀ s ∈ subs, step s = .ok (f s)) →
      applySubs step k subs = (subs.map (fun s => { s with state := f s }), none)
  | _, [], _ => by simp [applySubs]
  | k, s :: rest, h => by
    have hs : step s = .ok (f s) := h s (List.mem_cons_self s rest)
    have ih := applySubs_ok step f (k + 1) rest
      (fun x hx => h x (List.mem_cons_of_mem s hx))
    simp [applySubs, hs, ih]

theorem applySubs_fail {σ ε E : Type} (step : Subscriber σ ε E → Except ε σ)
    (f : Subscriber σ ε E → σ) :
    ∀ (k : Nat) (pre : List (Subscriber σ ε E)) (sk : Subscriber σ ε E)
      (post : List (Subscriber σ ε E)) (e : ε),
      (∀ s ∈ pre, step s = .ok (f s)) → step sk = .error e →
      applySubs step k (pre ++ sk :: post) =
        (pre.map (fun s => { s with state := f s }) ++ sk :: post,
         some (k + pre.length, e))
  | _, [], _, _, _, _, he => by simp [applySubs, he]
  | k, s :: pre, sk, post, e, h, he => by
    have hs : step s = .ok (f s) := h s (List.mem_cons_self s pre)
    have ih := applySubs_fail step f (k + 1) pre sk post e
      (fun x hx => h x (List.mem_cons_of_mem s hx)) he
    simp [applySubs, hs, ih]
    omega

/- ------------------------------------------------------------------ -/
/- Claim theorems                                                      -/
/- ------------------------------------------------------------------ -/

/-- C3 (counterexample): `clear` on an in-memory table at version 5 resets
    the version to the sentinel `0`, which is not strictly greater than
    the pre-call version, refuting the claim that every mutating operation
    (extend, update, and clear) strictly increases the version. -/
theorem in_mem_clear_version_not_increasing :
    ¬ (InMemTable.clear (⟨[some 1], 5⟩ : InMemTable Nat)).version >
      (⟨[some 1], 5⟩ : InMemTable Nat).version := by
  decide

/-- C3 (amended): for `extend` and `update` the post-call version is
    strictly greater than the pre-call version whenever the global counter
    is ahead of the table's version (as it is for every table produced by
    the constructor and by prior mutations); `clear`, however, resets the
    version to the sentinel `0` instead of bumping it. -/
theorem in_mem_mutation_version_bump {E : Type} (t : InMemTable E)
    (entries : List E) (from_row c : Nat) (h : t.version < c) :
    t.version < ((t.extendOwned entries c).1).version ∧
    t.version < ((t.update from_row entries c).1).version ∧
    (t.clear).version = 0 := by
  refine ⟨?_, ?_, rfl⟩ <;>
    simpa [InMemTable.extendOwned, InMemTable.update, next_version] using h

/-- C3 (witness for the amended theorem): a table at version 3 with the
    global counter at 5. -/
theorem in_mem_mutation_version_bump_witness :
    (3 : Nat) < 5 ∧
    (⟨[], 3⟩ : InMemTable Nat).version <
      (((⟨[], 3⟩ : InMemTable Nat).extendOwned [1] 5).1).version :=
  ⟨by decide, (in_mem_mutation_version_bump ⟨[], 3⟩ [1] 0 5 (by decide)).1⟩

/-- C1: `Cache::refresh` compares the origin version to the last-observed
    one.  If they are equal the mirror is untouched and no mirror
    operation is performed; if they differ the mirror is cleared and then
    wholesale reloaded with exactly the origin's fetched entries, the new
    version is recorded as last-observed, and afterwards `read()` returns
    exactly the origin's latest fetch result. -/
theorem cache_refresh_coherence {E : Type} (t : Cache E) (ov : Nat)
    (oes : List E) (c : Nat) :
    (ov = t.last_origin_version → Cache.refresh t ov oes c = (t, [], c)) ∧
    (ov ≠ t.last_origin_version →
      Cache.refresh t ov oes c =
        ({ cache := { rows := oes.map some, version := c },
           last_origin_version := ov },
         [MirrorOp.clear, MirrorOp.reload], c + 1) ∧
      Cache.read (Cache.refresh t ov oes c).1 = oes) := by
  constructor
  · intro h
    simp [Cache.refresh, h]
  · intro h
    have hne : t.last_origin_version ≠ ov := fun hx => h hx.symm
    constructor
    · simp [Cache.refresh, hne, InMemTable.clear, InMemTable.extendOwned,
        next_version]
    · simp [Cache.refresh, hne, InMemTable.clear, InMemTable.extendOwned,
        next_version, Cache.read, InMemTable.read]

/-- C1 (witness): a cache whose last-observed version is 0, refreshed once
    with an unchanged origin version and once with a changed one. -/
theorem cache_refresh_coherence_witness :
    Cache.refresh (⟨⟨[some 9], 2⟩, 0⟩ : Cache Nat) 0 [5] 7 =
      (⟨⟨[some 9], 2⟩, 0⟩, [], 7) ∧
    Cache.read (Cache.refresh (⟨⟨[some 9], 2⟩, 0⟩ : Cache Nat) 1 [5, 6] 7).1 =
      [5, 6] :=
  ⟨(cache_refresh_coherence ⟨⟨[some 9], 2⟩, 0⟩ 0 [5] 7).1 rfl,
   ((cache_refresh_coherence ⟨⟨[some 9], 2⟩, 0⟩ 1 [5, 6] 7).2 (by decide)).2⟩

/-- C10: the Cache write paths write the mirror before the origin.  If the
    mirror write fails the call returns the Cache-tagged error and the
    origin is never attempted (the result is the same for every origin
    behavior, both states unchanged); if the mirror write succeeds and the
    origin write fails, the call returns the Origin-tagged error while the
    mirror keeps the newly written entries; instantiated with the
    in-memory mirror, a subsequent read then shows the appended entries
    the origin never accepted. -/
theorem cache_write_order {E MS OS CErr OErr : Type}
    (mirExtend : MS → List E → Except CErr MS)
    (orgExtend : OS → List E → Except OErr OS)
    (mirUpdate : MS → Nat → List E → Except CErr MS)
    (orgUpdate : OS → Nat → List E → Except OErr OS)
    (t : CachePair MS OS) (from_row : Nat) (entries : List E) :
    (∀ e, mirExtend t.cache entries = .error e →
      cacheExtend mirExtend orgExtend t entries = (t, .error (.Cache e))) ∧
    (∀ ms e, mirExtend t.cache entries = .ok ms →
      orgExtend t.origin entries = .error e →
      cacheExtend mirExtend orgExtend t entries =
        ({ cache := ms, origin := t.origin }, .error (.Origin e))) ∧
    (∀ e, mirUpdate t.cache from_row entries = .error e →
      cacheUpdate mirUpdate orgUpdate t from_row entries =
        (t, .error (.Cache e))) ∧
    (∀ ms e, mirUpdate t.cache from_row entries = .ok ms →
      orgUpdate t.origin from_row entries = .error e →
      cacheUpdate mirUpdate orgUpdate t from_row entries =
        ({ cache := ms, origin := t.origin }, .error (.Origin e))) ∧
    (∀ (tm : InMemTable E) (os : OS) (e : OErr) (c : Nat)
      (orgExtend2 : OS → List E → Except OErr OS),
      orgExtend2 os entries = .error e →
      (cacheExtend
        (fun m es => (Except.ok ((m.extendOwned es c).1) :
          Except CErr (InMemTable E)))
        orgExtend2 ⟨tm, os⟩ entries).1.cache.read = tm.read ++ entries) := by
  refine ⟨?_, ?_, ?_, ?_, ?_⟩
  · intro e he
    simp [cacheExtend, he]
  · intro ms e hm ho
    simp [cacheExtend, hm, ho]
  · intro e he
    simp [cacheUpdate, he]
  · intro ms e hm ho
    simp [cacheUpdate, hm, ho]
  · intro tm os e c orgExtend2 ho
    simp [cacheExtend, ho, inMem_read_extendOwned]

/-- C10 (witness): a mirror whose write fails with error 0, and a
    mirror/origin pair where the mirror appends but the origin rejects. -/
theorem cache_write_order_witness :
    cacheExtend failingMirExtend okOrgExtend ⟨(), ()⟩ [1] =
      (⟨(), ()⟩, .error (.Cache 0)) ∧
    (cacheExtend inMemMirExtend failingOrgExtend ⟨⟨[some 2], 1⟩, ()⟩
      [3]).1.cache.read = (⟨[some 2], 1⟩ : InMemTable Nat).read ++ [3] :=
  ⟨(cache_write_order failingMirExtend okOrgExtend
      (fun _ _ _ => .error 0) (fun _ _ _ => .ok ()) ⟨(), ()⟩ 0 [1]).1 0 rfl,
   (cache_write_order inMemMirExtend failingOrgExtend
      (fun m _ es => .ok ((m.extendOwned es 4).1))
      (fun _ _ _ => .error 7) ⟨⟨[some 2], 1⟩, ()⟩ 0
      [3]).2.2.2.2 ⟨[some 2], 1⟩ () 7 4 failingOrgExtend rfl⟩

/-- C2: the fan-out synchronizer's `extend` and `update` write the origin
    first: on origin failure no subscriber is written and the error is the
    Origin-tagged variant; on origin success the identical write is
    applied to every subscriber in declared order; and when the subscriber
    at position K fails, the subscribers before it have the write applied,
    the failing one and those after it are untouched, the origin write
    stands, and the error is the tagged variant naming subscriber K. -/
theorem fork_extend_update_ordering {OS σ ε α E : Type}
    (orgExtend : OS → List E → Except α OS)
    (orgUpdate : OS → Nat → List E → Except α OS)
    (os : OS) (from_row : Nat) (entries : List E)
    (subs pre post : List (Subscriber σ ε E)) (sk : Subscriber σ ε E)
    (f : Subscriber σ ε E → σ) :
    (∀ e, orgExtend os entries = .error e →
      forkExtend orgExtend os subs entries =
        ((os, subs), some (.ExtendOrigin e))) ∧
    (∀ os2, orgExtend os entries = .ok os2 →
      (∀ s ∈ subs, s.extend s.state entries = .ok (f s)) →
      forkExtend orgExtend os subs entries =
        ((os2, subs.map (fun s => { s with state := f s })), none)) ∧
    (∀ os2 e, orgExtend os entries = .ok os2 →
      (∀ s ∈ pre, s.extend s.state entries = .ok (f s)) →
      sk.extend sk.state entries = .error e →
      forkExtend orgExtend os (pre ++ sk :: post) entries =
        ((os2, pre.map (fun s => { s with state := f s }) ++ sk :: post),
         some (.ExtendSub pre.length e))) ∧
    (∀ e, orgUpdate os from_row entries = .error e →
      forkUpdate orgUpdate os subs from_row entries =
        ((os, subs), some (.UpdateOrigin e))) ∧
    (∀ os2, orgUpdate os from_row entries = .ok os2 →
      (∀ s ∈ subs, s.update s.state from_row entries = .ok (f s)) →
      forkUpdate orgUpdate os subs from_row entries =
        ((os2, subs.map (fun s => { s with state := f s })), none)) ∧
    (∀ os2 e, orgUpdate os from_row entries = .ok os2 →
      (∀ s ∈ pre, s.update s.state from_row entries = .ok (f s)) →
      sk.update sk.state from_row entries = .error e →
      forkUpdate orgUpdate os (pre ++ sk :: post) from_row entries =
        ((os2, pre.map (fun s => { s with state := f s }) ++ sk :: post),
         some (.UpdateSub pre.length e))) := by
  refine ⟨?_, ?_, ?_, ?_, ?_, ?_⟩
  · intro e he
    simp [forkExtend, he]
  · intro os2 ho h
    simp [forkExtend, ho, applySubs_ok (fun s => s.extend s.state entries) f 0 subs h]
  · intro os2 e ho h he
    simp [forkExtend, ho,
      applySubs_fail (fun s => s.extend s.state entries) f 0 pre sk post e h he]
  · intro e he
    simp [forkUpdate, he]
  · intro os2 ho h
    simp [forkUpdate, ho,
      applySubs_ok (fun s => s.update s.state from_row entries) f 0 subs h]
  · intro os2 e ho h he
    simp [forkUpdate, ho,
      applySubs_fail (fun s => s.update s.state from_row entries) f 0 pre sk post e h he]

/-- C2 (witness): one succeeding subscriber followed by one whose extend
    fails: the first reflects the write, the error names position 1. -/
theorem fork_extend_update_ordering_witness :
    forkExtend okOrgExtend () [okSub, failingExtendSub] [1] =
      (((), [{ okSub with state := () }, failingExtendSub]),
       some (.ExtendSub 1 ())) :=
  (fork_extend_update_ordering okOrgExtend (fun _ _ _ => .ok ()) () 0 [1] []
      [okSub] [] failingExtendSub (fun _ => ())).2.2.1 () () rfl
    (by
      intro s hs
      rw [List.mem_singleton] at hs
      subst hs
      rfl)
    rfl

/-- C5 (counterexample): a fork whose origin fetch succeeds with entries
    `[1]` but whose single subscriber fails to clear: `fetch()` returns
    the subscriber-tagged error, not success, refuting the claim that
    success is gated on the origin fetch only. -/
theorem fork_fetch_subscriber_failure_counterexample :
    okOriginFetch () = .ok ((), [1]) ∧
    (forkFetch okOriginFetch () [failingClearSub]).2 =
      .error (ForkError.ClearSub 0 ()) :=
  ⟨rfl, rfl⟩

/-- C5 (amended): `fetch()` fetches from the origin (an origin failure is
    the Fetch-Origin-tagged error with no subscriber touched), then clears
    every subscriber in declared order and reloads every subscriber with
    the fetched entries in declared order; its success is gated on the
    origin fetch AND on every subscriber operation — a failing subscriber
    clear, and likewise a failing subscriber reload after all clears
    succeeded, aborts with the tagged error naming that subscriber. -/
theorem fork_fetch_behavior {OS σ ε α E : Type}
    (orgFetch : OS → Except α (OS × List E)) (os : OS)
    (subs pre post : List (Subscriber σ ε E)) (sk : Subscriber σ ε E)
    (g f : Subscriber σ ε E → σ) :
    (∀ e, orgFetch os = .error e →
      forkFetch orgFetch os subs = ((os, subs), .error (.FetchOrigin e))) ∧
    (∀ os2 entries, orgFetch os = .ok (os2, entries) →
      (∀ s ∈ subs, s.clear s.state = .ok (g s)) →
      (∀ s ∈ subs.map (fun s => { s with state := g s }),
        s.extend s.state entries = .ok (f s)) →
      forkFetch orgFetch os subs =
        ((os2, (subs.map (fun s => { s with state := g s })).map
          (fun s => { s with state := f s })), .ok entries)) ∧
    (∀ os2 entries e, orgFetch os = .ok (os2, entries) →
      (∀ s ∈ pre, s.clear s.state = .ok (g s)) →
      sk.clear sk.state = .error e →
      forkFetch orgFetch os (pre ++ sk :: post) =
        ((os2, pre.map (fun s => { s with state := g s }) ++ sk :: post),
         .error (.ClearSub pre.length e))) ∧
    (∀ os2 entries e, orgFetch os = .ok (os2, entries) →
      (∀ s ∈ subs, s.clear s.state = .ok (g s)) →
      subs.map (fun s => { s with state := g s }) = pre ++ sk :: post →
      (∀ s ∈ pre, s.extend s.state entries = .ok (f s)) →
      sk.extend sk.state entries = .error e →
      forkFetch orgFetch os subs =
        ((os2, pre.map (fun s => { s with state := f s }) ++ sk :: post),
         .error (.ExtendSub pre.length e))) := by
  refine ⟨?_, ?_, ?_, ?_⟩
  · intro e he
    simp [forkFetch, he]
  · intro os2 entries ho h1 h2
    simp [forkFetch, ho, applySubs_ok (fun s => s.clear s.state) g 0 subs h1,
      applySubs_ok (fun s => s.extend s.state entries) f 0
        (subs.map (fun s => { s with state := g s })) h2]
  · intro os2 entries e ho h he
    simp [forkFetch, ho,
      applySubs_fail (fun s => s.clear s.state) g 0 pre sk post e h he]
  · intro os2 entries e ho h1 hmap h2 he
    simp [forkFetch, ho, applySubs_ok (fun s => s.clear s.state) g 0 subs h1,
      hmap,
      applySubs_fail (fun s => s.extend s.state entries) f 0 pre sk post e h2 he]

/-- C5 (witness for the amended theorem): an origin fetch of `[1]` over
    one subscriber that clears and reloads successfully, and over one
    subscriber that clears but fails to reload, yielding the
    ExtendSub-tagged error. -/
theorem fork_fetch_behavior_witness :
    forkFetch okOriginFetch () [okSub] =
      (((), [{ { okSub with state := () } with state := () }]), .ok [1]) ∧
    forkFetch okOriginFetch () [failingExtendSub] =
      (((), [{ failingExtendSub with state := () }]),
       .error (.ExtendSub 0 ())) := by
  constructor
  · have h := (fork_fetch_behavior okOriginFetch () [okSub] [] [] okSub
      (fun _ => ()) (fun _ => ())).2.1 () [1] rfl
      (by
        intro s hs
        rw [List.mem_singleton] at hs
        subst hs
        rfl)
      (by
        intro s hs
        rw [List.map_singleton, List.mem_singleton] at hs
        subst hs
        rfl)
    simpa using h
  · have h := (fork_fetch_behavior okOriginFetch () [failingExtendSub] []
      [] { failingExtendSub with state := () }
      (fun _ => ()) (fun _ => ())).2.2.2 () [1] () rfl
      (by
        intro s hs
        rw [List.mem_singleton] at hs
        subst hs
        rfl)
      rfl
      (by
        intro s hs
        exact absurd hs (List.not_mem_nil s))
      rfl
    simpa using h

/-- C7: the spreadsheet adapter's `version()` with a configured meta
    region bumps the version exactly when the observed content hash
    differs from the last-observed one (given the counter invariant that
    fresh counter values exceed the current version), so two consecutive
    calls observing the same hash return equal versions; without a meta
    region every call bumps, so two consecutive calls never return equal
    versions. -/
theorem sheet_version_fingerprint (s : SheetVersion) (h1 h2 : String)
    (c : Nat) (hc : s.version < c) :
    ((SheetVersion.fetch_version true h1 s c).1.version ≠ s.version ↔
      h1 ≠ s.version_hash) ∧
    ((SheetVersion.fetch_version true h1
        (SheetVersion.fetch_version true h1 s c).1
        (SheetVersion.fetch_version true h1 s c).2).1.version =
      (SheetVersion.fetch_version true h1 s c).1.version) ∧
    ((SheetVersion.fetch_version false h2
        (SheetVersion.fetch_version false h1 s c).1
        (SheetVersion.fetch_version false h1 s c).2).1.version ≠
      (SheetVersion.fetch_version false h1 s c).1.version) := by
  refine ⟨?_, ?_, ?_⟩
  · by_cases hh : h1 = s.version_hash
    · simp [SheetVersion.fetch_version, hh]
    · simp only [SheetVersion.fetch_version, if_pos hh, if_true, ne_eq]
      simp [hh, next_version]
      omega
  · by_cases hh : h1 = s.version_hash
    · simp [SheetVersion.fetch_version, hh]
    · simp [SheetVersion.fetch_version, hh]
  · simp [SheetVersion.fetch_version, next_version]

/-- C7 (witness): the fingerprint state ⟨0, ""⟩ with the counter at 1,
    observing the hash "x". -/
theorem sheet_version_fingerprint_witness :
    (0 : Nat) < 1 ∧
    ((SheetVersion.fetch_version true "x" ⟨0, ""⟩ 1).1.version ≠ 0 ↔
      "x" ≠ "") :=
  ⟨by decide, by
    have h := (sheet_version_fingerprint ⟨0, ""⟩ "x" "y" 1 (by decide)).1
    simpa using h⟩

/-- C8: `Clock::version`. A call while the elapsed time since the last
    refresh has not exceeded the TTL returns the cached version, changes
    nothing and performs zero wrapped calls; a call once more than the TTL
    has elapsed performs exactly one wrapped call and returns and caches
    its result (recording the query instant); hence two calls within one
    TTL window make no wrapped call at all. -/
theorem clock_version_throttling {IS Err : Type}
    (f : IS → Except Err (Nat × IS)) (t : Clock IS) (now n1 n2 : Int) :
    (¬ now - t.last_cache_update > t.ttl →
      Clock.versionOp f t now = (.ok (t.cached_version, t), 0)) ∧
    (now - t.last_cache_update > t.ttl →
      ∀ v is2, f t.inner = .ok (v, is2) →
      Clock.versionOp f t now =
        (.ok (v, { inner := is2, ttl := t.ttl, cached_version := v,
                   last_cache_update := now }), 1)) ∧
    (¬ n1 - t.last_cache_update > t.ttl →
      ¬ n2 - t.last_cache_update > t.ttl →
      (Clock.versionOp f t n1).2 = 0 ∧
      ∀ v1 st1, (Clock.versionOp f t n1).1 = .ok (v1, st1) →
        (Clock.versionOp f st1 n2).2 = 0) := by
  refine ⟨?_, ?_, ?_⟩
  · intro h
    simp [Clock.versionOp, h]
  · intro h v is2 hf
    simp [Clock.versionOp, h, hf]
  · intro h1 h2
    constructor
    · simp [Clock.versionOp, h1]
    · intro v1 st1 hv
      simp [Clock.versionOp, h1] at hv
      rcases hv with ⟨hv1, hst⟩
      subst hst
      simp [Clock.versionOp, h2]

/-- C8 (witness): a clock with TTL 10 last refreshed at instant 0, queried
    at instant 5 (within the window) and at instant 11 with a wrapped
    component reporting version 42 (window expired). -/
theorem clock_version_throttling_witness :
    Clock.versionOp innerVersion42
      (⟨(), 10, 7, 0⟩ : Clock Unit) 5 = (.ok (7, ⟨(), 10, 7, 0⟩), 0) ∧
    Clock.versionOp innerVersion42
      (⟨(), 10, 7, 0⟩ : Clock Unit) 11 = (.ok (42, ⟨(), 10, 42, 11⟩), 1) :=
  ⟨(clock_version_throttling innerVersion42 ⟨(), 10, 7, 0⟩
      5 0 0).1 (by decide),
   (clock_version_throttling innerVersion42 ⟨(), 10, 7, 0⟩
      11 0 0).2.1 (by decide) 42 () rfl⟩

theorem from_str_sound (s : String) (r : SheetRange)
    (h : SheetRange.from_str s = .ok r) :
    r.c_start ≤ r.c_end ∧ ∀ re, r.r_end = some re → r.r_start ≤ re := by
  unfold SheetRange.from_str at h
  set m := (bangSplits s.data).findSome? (fun p =>
    if p.1.all (fun ch => ch ≠ '\n') then
      (parseRangePart p.2).map (fun r => (p.1, r))
    else none) with hm
  clear_value m
  cases m with
  | none => simp at h
  | some x =>
    obtain ⟨name, csRaw, rsRaw, endPart⟩ := x
    dsimp only at h
    cases endPart with
    | none =>
      dsimp only at h
      by_cases hb : boundsInvalid (csRaw - 1) ((csRaw - 1) + 1)
        (rsRaw.getD 1 - 1) (some ((rsRaw.getD 1 - 1) + 1))
      · rw [if_pos hb] at h
        simp at h
      · rw [if_neg hb] at h
        cases h
        simp [boundsInvalid] at hb
        dsimp only
        refine ⟨by omega, ?_⟩
        intro re hre
        cases hre
        omega
    | some ep =>
      obtain ⟨ceRaw, reRaw⟩ := ep
      dsimp only at h
      by_cases hb : boundsInvalid (csRaw - 1) ceRaw (rsRaw.getD 1 - 1) reRaw
      · rw [if_pos hb] at h
        simp at h
      · rw [if_neg hb] at h
        cases h
        simp [boundsInvalid] at hb
        obtain ⟨h1, h2⟩ := hb
        dsimp only
        refine ⟨by omega, ?_⟩
        intro re hre
        cases reRaw with
        | none => simp at hre
        | some rr =>
          cases hre
          simp at h2
          omega

/-- C6 (counterexample): the reference `Sheet!B1:A1`, whose end column A
    is strictly before its start column B, is NOT rejected: it parses to
    the empty region with `c_start = c_end = 1`, refuting the claim that
    every such reference returns an error. -/
theorem range_parse_inverted_column_accepted :
    SheetRange.from_str "Sheet!B1:A1" = .ok ⟨"Sheet", 1, 0, 1, some 1⟩ ∧
    toCol ['A'] < toCol ['B'] :=
  ⟨rfl, by decide⟩

/-- C6 (amended): parsing rejects a reference exactly when its stored
    bounds are inverted — every accepted reference satisfies
    `c_start ≤ c_end` and `r_start ≤ r_end`.  Because the start column/row
    are converted to 0-indexed while the end column/row stay raw
    (exclusive), a textual end column or row exactly one before its start
    yields an empty region and is accepted; only an end at least two
    before the start is rejected, as in `Sheet!C1:A1` and `Sheet!A5:D3`.
    Column letters are read as 1-indexed base-26 sequences with no zero
    digit. -/
theorem range_parse_bounds_discipline :
    (∀ s r, SheetRange.from_str s = .ok r →
      r.c_start ≤ r.c_end ∧ ∀ re, r.r_end = some re → r.r_start ≤ re) ∧
    SheetRange.from_str "Sheet!C1:A1" =
      .error (.InvalidRange "Sheet!C1:A1") ∧
    SheetRange.from_str "Sheet!A5:D3" =
      .error (.InvalidRange "Sheet!A5:D3") ∧
    toCol ['A'] = 1 ∧ toCol ['Z'] = 26 ∧ toCol ['A', 'A'] = 27 ∧
    toCol ['A', 'B'] = 28 :=
  ⟨from_str_sound, rfl, rfl, by decide, by decide, by decide, by decide⟩

/-- C6 (witness for the amended theorem): the parsed `Sheet!A2:D5`
    satisfies the bound discipline. -/
theorem range_parse_bounds_discipline_witness :
    SheetRange.from_str "Sheet!A2:D5" = .ok ⟨"Sheet", 0, 1, 4, some 5⟩ ∧
    ((0 : Nat) ≤ 4 ∧ ∀ re, (some 5 : Option Nat) = some re → 1 ≤ re) :=
  ⟨rfl, by
    have h := range_parse_bounds_discipline.1 "Sheet!A2:D5"
      ⟨"Sheet", 0, 1, 4, some 5⟩ rfl
    simp only at h
    exact h⟩

/-- C9: the specified region codec examples. `Sheet!A2:D5` parses to sheet
    "Sheet", c_start 0, c_end 4, r_start 1, r_end 5; `Sheet!A2:D` parses
    with an unbounded end row; `Sheet!A1` parses to the 1×1 region at
    (0,0); and the region {sheet:"Sheet", c_start:1, r_start:1, c_end:5,
    r_end:5} stringifies to `Sheet!B2:E5`. -/
theorem range_parse_examples :
    SheetRange.from_str "Sheet!A2:D5" = .ok ⟨"Sheet", 0, 1, 4, some 5⟩ ∧
    SheetRange.from_str "Sheet!A2:D" = .ok ⟨"Sheet", 0, 1, 4, none⟩ ∧
    SheetRange.from_str "Sheet!A1" = .ok ⟨"Sheet", 0, 0, 1, some 1⟩ ∧
    SheetRange.toA1 ⟨"Sheet", 1, 1, 5, some 5⟩ = "Sheet!B2:E5" :=
  ⟨rfl, rfl, rfl, by decide⟩

theorem serializeSV_singleton : ∀ v : SValue, serializeSV v = [serCell v]
  | .num _ => rfl
  | .str _ => rfl
  | .bool _ => rfl
  | .variant _ => rfl
  | .unit => rfl
  | .optNone => rfl
  | .optSome v => by
    have ih := serializeSV_singleton v
    show serializeSV v = [(serializeSV v).headD Cell.null]
    rw [ih]
    rfl

theorem deField_roundtrip (v : SValue) : ∀ (t : FieldTy) (rest : List Cell),
    okField v t = true → deField t (serializeSV v ++ rest) = .ok (v, rest) := by
  induction v with
  | num q =>
    intro t rest h
    cases t <;> simp [okField] at h
    rfl
  | str s =>
    intro t rest h
    cases t <;> simp [okField] at h
    show Except.ok (SValue.str (strTrim s), rest) = Except.ok (SValue.str s, rest)
    rw [h]
  | bool b =>
    intro t rest h
    cases t <;> simp [okField] at h
    rfl
  | variant v =>
    intro t rest h
    cases t <;> simp [okField] at h
    rename_i vars
    obtain ⟨h1, h2⟩ := h
    show (if strTrim v ∈ vars then
        Except.ok (SValue.variant (strTrim v), rest)
      else Except.error DeError.UnknownVariant) =
      Except.ok (SValue.variant v, rest)
    rw [h1, if_pos h2]
  | unit =>
    intro t rest h
    cases t <;> simp [okField] at h
  | optNone =>
    intro t rest h
    cases t <;> simp [okField] at h
  | optSome v ih =>
    intro t rest h
    cases t <;> simp [okField] at h
    obtain ⟨h1, h2⟩ := h
    have ihh := ih _ rest h1
    rw [serializeSV_singleton v] at ihh
    simp only [List.singleton_append] at ihh
    have hser : serializeSV (SValue.optSome v) = serializeSV v := rfl
    rw [hser, serializeSV_singleton v]
    simp [deField, h2, ihh]
    rfl

theorem deRecord_roundtrip : ∀ (vs : List SValue) (tys : List FieldTy),
    vs.length = tys.length →
    (List.zip vs tys).all (fun p => okField p.1 p.2) = true →
    deRecord tys (serializeRecord vs) = .ok vs
  | [], [], _, _ => by simp [serializeRecord, deRecord]
  | [], _ :: _, h, _ => by simp at h
  | _ :: _, [], h, _ => by simp at h
  | v :: vs, t :: ts, h, hall => by
    simp only [List.zip_cons_cons, List.all_cons, Bool.and_eq_true] at hall
    obtain ⟨h1, h2⟩ := hall
    have hf := deField_roundtrip v t (serializeRecord vs) h1
    rw [serializeSV_singleton v] at hf
    simp only [List.singleton_append] at hf
    have ihh := deRecord_roundtrip vs ts (by simpa using h) h2
    have hrec : serializeRecord (v :: vs) =
        serializeSV v ++ serializeRecord vs := by
      simp [serializeRecord]
    rw [hrec, serializeSV_singleton v]
    simp only [List.singleton_append]
    rw [deRecord, hf]
    show List.cons v <$> deRecord ts (serializeRecord vs) = Except.ok (v :: vs)
    rw [ihh]
    rfl

/-- C4 (counterexample): the one-field all-scalar record whose string is
    `" a "` serializes to the cell `" a "` but deserializes to `"a"` — the
    deserializer trims strings — so serialize-then-deserialize is not the
    identity on it. -/
theorem row_roundtrip_trim_counterexample :
    deRecord [FieldTy.str] (serializeRecord [SValue.str " a "]) =
      .ok [SValue.str "a"] ∧
    deRecord [FieldTy.str] (serializeRecord [SValue.str " a "]) ≠
      .ok [SValue.str " a "] := by
  constructor
  · rfl
  · intro h
    rw [show deRecord [FieldTy.str] (serializeRecord [SValue.str " a "]) =
      Except.ok [SValue.str "a"] from rfl] at h
    have h2 : [SValue.str "a"] = [SValue.str " a "] := by injection h
    exact absurd h2 (by decide)

/-- C4 (amended): serialize-then-deserialize is the identity for every
    all-scalar record whose fields are numbers, booleans, trim-invariant
    strings, declared trim-invariant enum variant names, or present
    optionals of such values that do not serialize to an empty cell
    (deserialization trims strings, and an absent optional or unit field
    leaves its empty cell unconsumed, so those are excluded);
    e.g. {string:"String", int:1.0, boolean:true} round-trips. -/
theorem row_roundtrip_identity (vs : List SValue) (tys : List FieldTy)
    (hlen : vs.length = tys.length)
    (hok : (List.zip vs tys).all (fun p => okField p.1 p.2) = true) :
    deRecord tys (serializeRecord vs) = .ok vs :=
  deRecord_roundtrip vs tys hlen hok

/-- C4 (witness for the amended theorem): the spec's example record
    {string:"String", int:1.0, boolean:true} round-trips. -/
theorem row_roundtrip_identity_witness :
    ([SValue.str "String", SValue.num 1, SValue.bool true].length =
      [FieldTy.str, FieldTy.num, FieldTy.boolTy].length) ∧
    deRecord [FieldTy.str, FieldTy.num, FieldTy.boolTy]
      (serializeRecord
        [SValue.str "String", SValue.num 1, SValue.bool true]) =
      .ok [SValue.str "String", SValue.num 1, SValue.bool true] :=
  ⟨rfl, row_roundtrip_identity
    [SValue.str "String", SValue.num 1, SValue.bool true]
    [FieldTy.str, FieldTy.num, FieldTy.boolTy] rfl (by decide)⟩
